import Mathlib

/-!
Shallow embedding of the prompthub-nexus access-control core: the SQL
helper functions of `20250127_super_admin_helpers.sql` and the signup
trigger `handle_invitation_signup` of the super-admin migration, modelled
as pure transformers over an explicit relational state `DB`.

Timestamps are integers measured in days; `now + 7` models
`now() + interval '7 days'` and `now - 1` models `now() - interval '1 day'`.
Row ids (`gen_random_uuid()` in the source) are modelled by a counter
`nextId` that supplies a fresh id to every insert.  Invitation tokens
(`gen_random_bytes`) are modelled as an input supplied by the caller's
environment.
-/

namespace PromptHub

/-- The `org_role` enum, with the `super_admin` value added by the migration. -/
inductive Role where
  | viewer
  | admin
  | owner
  | super_admin
deriving DecidableEq, Repr

/-- A row of `public.organizations`. -/
structure Organization where
  id : Nat
  name : String
  isPublic : Bool
deriving DecidableEq, Repr

/-- A row of `public.organization_members`. -/
structure Member where
  orgId : Nat
  userId : Nat
  role : Role
deriving DecidableEq, Repr

/-- A row of `public.invitations`. -/
structure Invitation where
  id : Nat
  email : String
  token : String
  role : Role
  orgId : Option Nat
  invitedBy : Option Nat
  expiresAt : Int
  usedAt : Option Int
  createdAt : Int
deriving DecidableEq, Repr

/-- A row of `public.profiles`. -/
structure Profile where
  id : Nat
  email : String
  displayName : String
deriving DecidableEq, Repr

/-- The relational store: the tables that the super-admin helpers touch,
plus the fresh-id counter. -/
structure DB where
  organizations : List Organization
  members : List Member
  invitations : List Invitation
  profiles : List Profile
  nextId : Nat
deriving DecidableEq, Repr

/-- The row inserted into `auth.users` that fires the signup trigger:
`NEW.id`, `NEW.email` and `NEW.raw_user_meta_data->>'display_name'`. -/
structure SignupEvent where
  userId : Nat
  email : String
  displayName : Option String
deriving DecidableEq, Repr

/-- Error taxonomy of the administrative functions: `RAISE EXCEPTION` on the
super-admin gate maps to `permissionDenied`, on the email-format check to
`validationError`. -/
inductive AdminError where
  | permissionDenied
  | validationError
deriving DecidableEq, Repr

/-- `public.is_super_admin(user_id)`: does any `organization_members` row for
this user carry role `super_admin`? -/
def is_super_admin (db : DB) (userId : Nat) : Bool :=
  db.members.any (fun m => m.userId == userId && m.role == Role.super_admin)

/-- `public.get_user_org_role(user_id, org_id)`: the role of the first
matching membership row, or null. -/
def get_user_org_role (db : DB) (userId orgId : Nat) : Option Role :=
  (db.members.find? (fun m => m.userId == userId && m.orgId == orgId)).map Member.role

/-- `public.user_is_org_member(user_id, org_id)`. -/
def user_is_org_member (db : DB) (userId orgId : Nat) : Bool :=
  db.members.any (fun m => m.userId == userId && m.orgId == orgId)

/-- SQL `LOWER`, restricted (as `Char.toLower` is) to basic latin letters. -/
def sqlLower (s : String) : String :=
  ⟨s.data.map Char.toLower⟩

/-- Characters allowed by the local part `[A-Za-z0-9._%+-]` of the email
regex of `create_user_invitation`. -/
def emailLocalChar (c : Char) : Bool :=
  c.isAlphanum || c == '.' || c == '_' || c == '%' || c == '+' || c == '-'

/-- Characters allowed by the domain part `[A-Za-z0-9.-]` of the email regex. -/
def emailDomainChar (c : Char) : Bool :=
  c.isAlphanum || c == '.' || c == '-'

/-- Split a character list at every occurrence of `sep` (occurrences are
dropped; the result always has one more piece than there are separators). -/
def splitChar (sep : Char) : List Char → List (List Char)
  | [] => [[]]
  | c :: cs =>
    match splitChar sep cs with
    | [] => [[c]]
    | h :: t => if c == sep then [] :: h :: t else (c :: h) :: t

/-- The email-format check
`p_email ~ '^[A-Za-z0-9._%+-]+@[A-Za-z0-9.-]+\.[A-Za-z]\x7b2,\x7d$'`:
one `@` splitting a nonempty local part from a domain that ends in a dot
followed by at least two letters. -/
def valid_email (e : String) : Bool :=
  match splitChar '@' e.data with
  | [lp, dom] =>
    let ps := splitChar '.' dom
    let tld := ps.getLastD []
    !lp.isEmpty && lp.all emailLocalChar &&
      decide (2 ≤ ps.length) && decide (ps.dropLast ≠ [[]]) &&
      ps.dropLast.all (fun p => p.all emailDomainChar) &&
      tld.all Char.isAlpha && decide (2 ≤ tld.length)
  | _ => false

/-- The row inserted by `create_user_invitation`: email lowercased, expiry
seven days out, `invited_by = auth.uid()`. -/
def newInvitation (db : DB) (caller : Nat) (p_email : String) (p_role : Role)
    (p_org_id : Option Nat) (token : String) (now : Int) : Invitation :=
  { id := db.nextId
    email := sqlLower p_email
    token := token
    role := p_role
    orgId := p_org_id
    invitedBy := some caller
    expiresAt := now + 7
    usedAt := none
    createdAt := now }

/-- `public.create_user_invitation(p_email, p_role, p_org_id)`: super-admin
gate, email-format check, then insert; returns the new invitation id. -/
def create_user_invitation (db : DB) (caller : Nat) (p_email : String)
    (p_role : Role) (p_org_id : Option Nat) (token : String) (now : Int) :
    Except AdminError (Nat × DB) :=
  if !is_super_admin db caller then
    .error .permissionDenied
  else if !valid_email p_email then
    .error .validationError
  else
    let inv := newInvitation db caller p_email p_role p_org_id token now
    .ok (db.nextId,
      { db with invitations := db.invitations ++ [inv], nextId := db.nextId + 1 })

/-- A result row of `get_pending_invitations`. -/
structure PendingRow where
  id : Nat
  email : String
  role : Role
  orgName : String
  expiresAt : Int
  createdAt : Int
deriving DecidableEq, Repr

/-- `COALESCE(o.name, 'No Organization')` over the
`LEFT JOIN public.organizations o ON i.org_id = o.id`. -/
def orgNameOf (db : DB) (orgId : Option Nat) : String :=
  match orgId with
  | none => "No Organization"
  | some oid =>
    match db.organizations.find? (fun o => o.id == oid) with
    | some o => o.name
    | none => "No Organization"

/-- Projection of an invitation to a `get_pending_invitations` result row. -/
def pendingRowOf (db : DB) (i : Invitation) : PendingRow :=
  { id := i.id
    email := i.email
    role := i.role
    orgName := orgNameOf db i.orgId
    expiresAt := i.expiresAt
    createdAt := i.createdAt }

/-- `public.get_pending_invitations()`:
`WHERE is_super_admin() AND used_at IS NULL AND expires_at > now()
 ORDER BY created_at DESC`. -/
def get_pending_invitations (db : DB) (caller : Nat) (now : Int) : List PendingRow :=
  ((db.invitations.filter
      (fun i => is_super_admin db caller && i.usedAt == none && decide (now < i.expiresAt))).mergeSort
    (fun a b => decide (b.createdAt ≤ a.createdAt))).map (pendingRowOf db)

/-- `public.revoke_invitation(invitation_id)`: super-admin gate, then
`UPDATE invitations SET expires_at = now() - interval '1 day'
 WHERE id = invitation_id; RETURN FOUND`. -/
def revoke_invitation (db : DB) (caller : Nat) (now : Int) (invitation_id : Nat) :
    Except AdminError (Bool × DB) :=
  if !is_super_admin db caller then
    .error .permissionDenied
  else
    let found := db.invitations.any (fun i => i.id == invitation_id)
    let invs := db.invitations.map
      (fun i => if i.id == invitation_id then { i with expiresAt := now - 1 } else i)
    .ok (found, { db with invitations := invs })

/-- `public.promote_user_to_owner(p_user_id, p_org_id)`: super-admin gate,
then `UPDATE organization_members SET role = 'owner'
 WHERE user_id = p_user_id AND org_id = p_org_id; RETURN FOUND`. -/
def promote_user_to_owner (db : DB) (caller : Nat) (p_user_id p_org_id : Nat) :
    Except AdminError (Bool × DB) :=
  if !is_super_admin db caller then
    .error .permissionDenied
  else
    let found := db.members.any (fun m => m.userId == p_user_id && m.orgId == p_org_id)
    let ms := db.members.map
      (fun m => if m.userId == p_user_id && m.orgId == p_org_id
                then { m with role := Role.owner } else m)
    .ok (found, { db with members := ms })

/-- `public.create_organization_as_super_admin(p_name, p_is_public)`:
super-admin gate, insert the organization, insert the caller as its
`owner` member, return the new organization id. -/
def create_organization_as_super_admin (db : DB) (caller : Nat)
    (p_name : String) (p_is_public : Bool) : Except AdminError (Nat × DB) :=
  if !is_super_admin db caller then
    .error .permissionDenied
  else
    let org : Organization := { id := db.nextId, name := p_name, isPublic := p_is_public }
    let ownerRow : Member := { orgId := org.id, userId := caller, role := Role.owner }
    .ok (org.id,
      { db with
          organizations := db.organizations ++ [org]
          members := db.members ++ [ownerRow]
          nextId := db.nextId + 1 })

/-- The `WHERE` clause of the invitation lookup in `handle_invitation_signup`:
`email = NEW.email AND used_at IS NULL AND expires_at > now()`. -/
def invitationMatches (i : Invitation) (email : String) (now : Int) : Bool :=
  i.email == email && i.usedAt == none && decide (now < i.expiresAt)

/-- Accumulator of the `ORDER BY created_at DESC LIMIT 1` selection: keep the
row with the strictly larger `created_at` (the earlier row wins ties). -/
def pickStep (acc : Option Invitation) (i : Invitation) : Option Invitation :=
  match acc with
  | none => some i
  | some j => if j.createdAt < i.createdAt then some i else some j

/-- `SELECT * FROM invitations WHERE <invitationMatches>
 ORDER BY created_at DESC LIMIT 1`: the first row of maximal `created_at`
among the matching ones. -/
def pickInvitation (invs : List Invitation) (email : String) (now : Int) :
    Option Invitation :=
  (invs.filter (fun i => invitationMatches i email now)).foldl pickStep none

/-- `UPDATE invitations SET used_at = now() WHERE id = invId`. -/
def markUsed (invs : List Invitation) (invId : Nat) (now : Int) : List Invitation :=
  invs.map (fun i => if i.id == invId then { i with usedAt := some now } else i)

/-- `SELECT id FROM organizations WHERE is_public = true LIMIT 1`. -/
def firstPublicOrg (db : DB) : Option Organization :=
  db.organizations.find? (fun o => o.isPublic)

/-- The profile inserted by the trigger:
`(NEW.id, NEW.email, COALESCE(meta->>'display_name', NEW.email))`. -/
def newProfile (ev : SignupEvent) : Profile :=
  { id := ev.userId, email := ev.email, displayName := ev.displayName.getD ev.email }

/-- The trigger's `IF invitation_record IS NOT NULL` test as PostgreSQL
evaluates it: applied to a record, `IS NOT NULL` is true only when every
field is non-null.  Of the `invitations` columns only `org_id`,
`invited_by` and `used_at` are nullable, so the test reduces to these
three being set.  Every row the trigger's lookup can return satisfies
`used_at IS NULL`, so on such rows this test is always false (the
PL/pgSQL idiom for "a row was found" would have been `IF FOUND`). -/
def invitationRecordNotNull (inv : Invitation) : Bool :=
  inv.orgId.isSome && inv.invitedBy.isSome && inv.usedAt.isSome

/-- The trigger's `ELSE` branch (regular signup): insert the profile and,
when a public organization exists, a `viewer` membership in it. -/
def self_serve_signup (db : DB) (ev : SignupEvent) : DB :=
  let db2 := { db with profiles := db.profiles ++ [newProfile ev] }
  match firstPublicOrg db with
  | some o =>
    { db2 with members := db2.members ++ [{ orgId := o.id, userId := ev.userId, role := Role.viewer }] }
  | none => db2

/-- `public.handle_invitation_signup()`: the `AFTER INSERT ON auth.users`
trigger.  It selects the newest pending invitation matching `NEW.email`
and branches on `invitation_record IS NOT NULL`.  Because that row-wise
test is false whenever any field is null and matched rows always have
`used_at` null, the redemption arm (consume the invitation, attach per
its role/org) is unreachable in the source; every signup — found row or
not — falls through to the `ELSE` arm: profile plus, when a public
organization exists, a `viewer` membership.  Both arms are embedded as
written. -/
def handle_invitation_signup (db : DB) (ev : SignupEvent) (now : Int) : DB :=
  match pickInvitation db.invitations ev.email now with
  | some inv =>
    if invitationRecordNotNull inv then
      let invs := markUsed db.invitations inv.id now
      let profs := db.profiles ++ [newProfile ev]
      let db2 := { db with invitations := invs, profiles := profs }
      match inv.orgId with
      | some oid =>
        { db2 with members := db2.members ++ [{ orgId := oid, userId := ev.userId, role := inv.role }] }
      | none =>
        if inv.role == Role.super_admin then
          match firstPublicOrg db2 with
          | some o =>
            { db2 with members := db2.members ++ [{ orgId := o.id, userId := ev.userId, role := Role.super_admin }] }
          | none =>
            let pubOrg : Organization := { id := db2.nextId, name := "Public Organization", isPublic := true }
            let saRow : Member := { orgId := db2.nextId, userId := ev.userId, role := Role.super_admin }
            { db2 with
                organizations := db2.organizations ++ [pubOrg]
                members := db2.members ++ [saRow]
                nextId := db2.nextId + 1 }
        else
          db2
    else
      self_serve_signup db ev
  | none => self_serve_signup db ev

/-! ## Helper lemmas -/

/-- The fold of `pickStep` only ever returns an element of the list or the
initial accumulator. -/
theorem pickStep_foldl_mem :
    ∀ (l : List Invitation) (acc : Option Invitation) (i : Invitation),
      l.foldl pickStep acc = some i → i ∈ l ∨ acc = some i := by
  intro l
  induction l with
  | nil => intro acc i h; exact Or.inr h
  | cons x xs ih =>
    intro acc i h
    rcases ih (pickStep acc x) i h with hmem | hacc
    · exact Or.inl (List.mem_cons_of_mem x hmem)
    · unfold pickStep at hacc
      cases acc with
      | none =>
        exact Or.inl (by simp at hacc; simp [hacc])
      | some j =>
        by_cases hlt : j.createdAt < x.createdAt
        · simp [hlt] at hacc
          exact Or.inl (by simp [hacc])
        · simp [hlt] at hacc
          exact Or.inr (by simp [hacc])

/-- The invitation selected by `pickInvitation` is a stored invitation and
satisfies the `WHERE` clause. -/
theorem pickInvitation_mem {invs : List Invitation} {email : String} {now : Int}
    {i : Invitation} (h : pickInvitation invs email now = some i) :
    i ∈ invs ∧ invitationMatches i email now = true := by
  unfold pickInvitation at h
  rcases pickStep_foldl_mem _ none i h with hmem | hacc
  · exact ⟨(List.mem_filter.mp hmem).1, (List.mem_filter.mp hmem).2⟩
  · cases hacc

/-- Every row the trigger's lookup can return has `used_at` null (the
`WHERE` clause demands it), so the row-wise `IS NOT NULL` test fails on it
and the trigger always executes its `ELSE` branch. -/
theorem handle_signup_eq_self_serve (db : DB) (ev : SignupEvent) (now : Int) :
    handle_invitation_signup db ev now = self_serve_signup db ev := by
  unfold handle_invitation_signup
  cases hpick : pickInvitation db.invitations ev.email now with
  | none => rfl
  | some inv =>
    have hmatch := (pickInvitation_mem hpick).2
    unfold invitationMatches at hmatch
    simp only [Bool.and_eq_true, beq_iff_eq] at hmatch
    have hrec : invitationRecordNotNull inv = false := by
      simp [invitationRecordNotNull, hmatch.1.2]
    simp [hrec]

section ClaimC1

/-- A store with one super-admin (user 10) and one already-expired
invitation (id 5, `expires_at = 20`, `used_at` null) at `now = 50`. -/
def C1db : DB :=
  { organizations := [⟨1, "Public Organization", true⟩]
    members := [⟨1, 10, Role.super_admin⟩]
    invitations := [⟨5, "a@x.com", "tok5", Role.admin, some 1, some 10, 20, none, 10⟩]
    profiles := []
    nextId := 6 }

/-- The store after the revocation: the expired invitation's `expires_at`
has been back-dated to `49`. -/
def C1dbAfter : DB :=
  { C1db with invitations := [⟨5, "a@x.com", "tok5", Role.admin, some 1, some 10, 49, none, 10⟩] }

/-- C1 counterexample: revoking the already-expired invitation 5 (expired at
20, now = 50) by super-admin 10 returns `true`, not `false`, and rewrites the
stored `expires_at`; the claim predicted `false` and an unchanged store. -/
theorem C1_counterexample :
    revoke_invitation C1db 10 50 5 = Except.ok (true, C1dbAfter) ∧ C1dbAfter ≠ C1db := by
  constructor
  · rfl
  · decide

/-- C1 (amended): a super-admin's `revoke_invitation` on an invitation id
that exists in the store — even one already expired or already consumed —
returns `true` and back-dates that invitation's `expires_at` to one day
before `now`; no pending-state check guards the update. -/
theorem C1_revoke_backdates (db : DB) (caller : Nat) (now : Int) (invId : Nat)
    (i : Invitation) (hsa : is_super_admin db caller = true)
    (hmem : i ∈ db.invitations) (hid : i.id = invId)
    (hstale : i.usedAt ≠ none ∨ i.expiresAt ≤ now) :
    revoke_invitation db caller now invId =
      Except.ok (true,
        { db with invitations := db.invitations.map fun j => if j.id == invId then { j with expiresAt := now - 1 } else j }) := by
  have hfound : db.invitations.any (fun j => j.id == invId) = true := by
    rw [List.any_eq_true]
    exact ⟨i, hmem, by simp [hid]⟩
  simp [revoke_invitation, hsa, hfound]

/-- C1 witness: the amended statement applied to the concrete store `C1db`. -/
theorem C1_witness :
    revoke_invitation C1db 10 50 5 =
      Except.ok (true,
        { C1db with invitations := C1db.invitations.map fun j => if j.id == 5 then { j with expiresAt := 49 } else j }) :=
  C1_revoke_backdates C1db 10 50 5
    ⟨5, "a@x.com", "tok5", Role.admin, some 1, some 10, 20, none, 10⟩
    (by decide) (by decide) (by decide) (Or.inr (by decide))

end ClaimC1

section ClaimC2

/-- C2: every administrative command is gated on `is_super_admin` before any
mutation: a non-super-admin caller receives `permissionDenied` from
`create_user_invitation`, `revoke_invitation`, `promote_user_to_owner` and
`create_organization_as_super_admin`, and no updated store is produced. -/
theorem C2_non_super_admin_denied (db : DB) (caller : Nat) (e : String)
    (r : Role) (oid : Option Nat) (tok : String) (now : Int) (invId : Nat)
    (u o : Nat) (nm : String) (pub : Bool)
    (h : is_super_admin db caller = false) :
    create_user_invitation db caller e r oid tok now = .error .permissionDenied
    ∧ revoke_invitation db caller now invId = .error .permissionDenied
    ∧ promote_user_to_owner db caller u o = .error .permissionDenied
    ∧ create_organization_as_super_admin db caller nm pub = .error .permissionDenied := by
  refine ⟨?_, ?_, ?_, ?_⟩ <;>
    simp [create_user_invitation, revoke_invitation, promote_user_to_owner,
      create_organization_as_super_admin, h]

/-- C2 witness: user 11 (a mere viewer in `C1db` extended with a viewer row)
is denied by all four commands. -/
theorem C2_witness :
    is_super_admin ⟨[⟨1, "Pub", true⟩], [⟨1, 11, Role.viewer⟩], [], [], 2⟩ 11 = false
    ∧ create_user_invitation ⟨[⟨1, "Pub", true⟩], [⟨1, 11, Role.viewer⟩], [], [], 2⟩ 11
        "a@x.com" Role.admin none "tok" 0 = .error .permissionDenied
    ∧ revoke_invitation ⟨[⟨1, "Pub", true⟩], [⟨1, 11, Role.viewer⟩], [], [], 2⟩ 11 0 5 =
        .error .permissionDenied
    ∧ promote_user_to_owner ⟨[⟨1, "Pub", true⟩], [⟨1, 11, Role.viewer⟩], [], [], 2⟩ 11 11 1 =
        .error .permissionDenied
    ∧ create_organization_as_super_admin ⟨[⟨1, "Pub", true⟩], [⟨1, 11, Role.viewer⟩], [], [], 2⟩
        11 "Acme" false = .error .permissionDenied := by
  have h := C2_non_super_admin_denied ⟨[⟨1, "Pub", true⟩], [⟨1, 11, Role.viewer⟩], [], [], 2⟩
    11 "a@x.com" Role.admin none "tok" 0 5 11 1 "Acme" false (by decide)
  exact ⟨by decide, h.1, h.2.1, h.2.2.1, h.2.2.2⟩

end ClaimC2

section ClaimC6

/-- C6: for a super-admin caller, `get_pending_invitations` returns exactly
the stored invitations with `used_at` null and `expires_at` strictly after
`now` (as rows), ordered newest-first by `created_at`; in particular every
returned row has `now < expires_at`. -/
theorem C6_listPending_spec (db : DB) (caller : Nat) (now : Int)
    (h : is_super_admin db caller = true) :
    (get_pending_invitations db caller now).Perm
        ((db.invitations.filter fun i => i.usedAt == none && decide (now < i.expiresAt)).map (pendingRowOf db))
    ∧ (get_pending_invitations db caller now).Pairwise (fun a b => b.createdAt ≤ a.createdAt)
    ∧ ∀ r ∈ get_pending_invitations db caller now, now < r.expiresAt := by
  have hfilter :
      (db.invitations.filter fun i => is_super_admin db caller && i.usedAt == none && decide (now < i.expiresAt))
        = (db.invitations.filter fun i => i.usedAt == none && decide (now < i.expiresAt)) := by
    simp only [h, Bool.true_and]
  refine ⟨?_, ?_, ?_⟩
  · unfold get_pending_invitations
    rw [hfilter]
    exact (List.mergeSort_perm _ _).map _
  · unfold get_pending_invitations
    have hs := @List.sorted_mergeSort Invitation
      (fun a b => decide (b.createdAt ≤ a.createdAt))
      (fun a b c hab hbc => by
        simp only [decide_eq_true_eq] at *
        omega)
      (fun a b => by
        simp only [Bool.or_eq_true, decide_eq_true_eq]
        omega)
      (db.invitations.filter fun i => is_super_admin db caller && i.usedAt == none && decide (now < i.expiresAt))
    exact hs.map _ (fun a b hab => by
      simpa only [decide_eq_true_eq] using hab)
  · intro r hr
    unfold get_pending_invitations at hr
    obtain ⟨i, hmi, hproj⟩ := List.mem_map.mp hr
    rw [List.mem_mergeSort] at hmi
    have hp := (List.mem_filter.mp hmi).2
    simp only [Bool.and_eq_true, decide_eq_true_eq] at hp
    rw [← hproj]
    exact hp.2

/-- A store with a super-admin (user 10), one pending invitation (id 6),
one expired invitation (id 7) and one consumed invitation (id 8) at
`now = 70`. -/
def C6db : DB :=
  { organizations := [⟨1, "Public Organization", true⟩]
    members := [⟨1, 10, Role.super_admin⟩]
    invitations := [⟨6, "a@x.com", "t6", Role.admin, some 1, some 10, 100, none, 60⟩,
                    ⟨7, "b@x.com", "t7", Role.viewer, none, some 10, 30, none, 10⟩,
                    ⟨8, "c@x.com", "t8", Role.owner, some 1, some 10, 100, some 50, 40⟩]
    profiles := []
    nextId := 9 }

/-- C6 witness: the pending-listing specification at the concrete store
`C6db`, `now = 70`. -/
theorem C6_witness :
    is_super_admin C6db 10 = true
    ∧ ((get_pending_invitations C6db 10 70).Perm
          ((C6db.invitations.filter fun i => i.usedAt == none && decide ((70 : Int) < i.expiresAt)).map (pendingRowOf C6db))
        ∧ (get_pending_invitations C6db 10 70).Pairwise (fun a b => b.createdAt ≤ a.createdAt)
        ∧ ∀ r ∈ get_pending_invitations C6db 10 70, (70 : Int) < r.expiresAt) :=
  ⟨by decide, C6_listPending_spec C6db 10 70 (by decide)⟩

end ClaimC6

section ClaimC7

/-- C7: a super-admin's `create_organization_as_super_admin` returns, in one
step, a store holding both the new organization row and the caller's `owner`
membership of it, and the caller's resolved role in the new organization is
`owner`.  The freshness hypothesis says the new id is unused among
memberships, which every store built by the fresh-id counter satisfies. -/
theorem C7_createOrganization_spec (db : DB) (caller : Nat) (nm : String) (pub : Bool)
    (hsa : is_super_admin db caller = true)
    (hfresh : ∀ m ∈ db.members, m.orgId ≠ db.nextId) :
    ∃ dbr, create_organization_as_super_admin db caller nm pub = Except.ok (db.nextId, dbr)
      ∧ Organization.mk db.nextId nm pub ∈ dbr.organizations
      ∧ Member.mk db.nextId caller Role.owner ∈ dbr.members
      ∧ get_user_org_role dbr caller db.nextId = some Role.owner := by
  refine ⟨{ db with
      organizations := db.organizations ++ [⟨db.nextId, nm, pub⟩]
      members := db.members ++ [⟨db.nextId, caller, Role.owner⟩]
      nextId := db.nextId + 1 }, ?_, ?_, ?_, ?_⟩
  · simp [create_organization_as_super_admin, hsa]
  · simp
  · simp
  · have hnone : (db.members.find? fun m => m.userId == caller && m.orgId == db.nextId) = none := by
      rw [List.find?_eq_none]
      intro m hm
      simp only [Bool.and_eq_true, beq_iff_eq, not_and]
      exact fun _ h2 => hfresh m hm h2
    unfold get_user_org_role
    simp [List.find?_append, hnone]

/-- C7 witness: super-admin 10 creates "Acme" in a one-org store. -/
theorem C7_witness :
    is_super_admin C6db 10 = true
    ∧ (∀ m ∈ C6db.members, m.orgId ≠ C6db.nextId)
    ∧ ∃ dbr, create_organization_as_super_admin C6db 10 "Acme" false = Except.ok (C6db.nextId, dbr)
        ∧ Organization.mk C6db.nextId "Acme" false ∈ dbr.organizations
        ∧ Member.mk C6db.nextId 10 Role.owner ∈ dbr.members
        ∧ get_user_org_role dbr 10 C6db.nextId = some Role.owner :=
  ⟨by decide, by decide, C7_createOrganization_spec C6db 10 "Acme" false (by decide) (by decide)⟩

end ClaimC7

section ClaimC8

/-- C8: a super-admin's `promote_user_to_owner` on an existing membership row
returns `true` and rewrites that row's role to `owner` unconditionally — the
update has no guard on the previous role, so a `super_admin` row is demoted
like any other. -/
theorem C8_promote_overwrites (db : DB) (caller u o : Nat)
    (hsa : is_super_admin db caller = true)
    (hmem : ∃ m ∈ db.members, m.userId = u ∧ m.orgId = o) :
    ∃ dbr, promote_user_to_owner db caller u o = Except.ok (true, dbr)
      ∧ dbr.members = (db.members.map fun m => if m.userId == u && m.orgId == o then { m with role := Role.owner } else m)
      ∧ ∀ m ∈ dbr.members, m.userId = u → m.orgId = o → m.role = Role.owner := by
  obtain ⟨m0, hm0, hu0, ho0⟩ := hmem
  have hfound : db.members.any (fun m => m.userId == u && m.orgId == o) = true := by
    rw [List.any_eq_true]
    exact ⟨m0, hm0, by simp [hu0, ho0]⟩
  refine ⟨{ db with
      members := db.members.map fun m => if m.userId == u && m.orgId == o then { m with role := Role.owner } else m },
    ?_, rfl, ?_⟩
  · simp [promote_user_to_owner, hsa, hfound]
  · intro m hm hmu hmo
    obtain ⟨m1, hm1, hf⟩ := List.mem_map.mp hm
    by_cases hc : (m1.userId == u && m1.orgId == o) = true
    · rw [if_pos hc] at hf
      rw [← hf]
    · rw [if_neg (by simpa using hc)] at hf
      subst hf
      exact absurd (by simp [hmu, hmo]) hc

/-- A store whose sole super-admin is user 10, an owner-less one-member
organization 2. -/
def C8db : DB :=
  { organizations := [⟨2, "Acme", false⟩]
    members := [⟨2, 10, Role.super_admin⟩]
    invitations := []
    profiles := []
    nextId := 3 }

/-- C8 witness: promoting the sole super-admin (user 10) in organization 2
succeeds and leaves the store with no super-admin at all. -/
theorem C8_witness :
    is_super_admin C8db 10 = true
    ∧ (∃ m ∈ C8db.members, m.userId = 10 ∧ m.orgId = 2)
    ∧ ∃ dbr, promote_user_to_owner C8db 10 10 2 = Except.ok (true, dbr)
        ∧ (∀ m ∈ dbr.members, m.userId = 10 → m.orgId = 2 → m.role = Role.owner)
        ∧ is_super_admin dbr 10 = false := by
  obtain ⟨dbr, h1, h2, h3⟩ := C8_promote_overwrites C8db 10 10 2 (by decide)
    ⟨⟨2, 10, Role.super_admin⟩, by decide, rfl, rfl⟩
  refine ⟨by decide, ⟨⟨2, 10, Role.super_admin⟩, by decide, rfl, rfl⟩, dbr, h1, h3, ?_⟩
  unfold is_super_admin
  rw [h2]
  decide

end ClaimC8

section ClaimC3

/-- The two-pending-invitations store of the C3 scenario: invitations 5
(created at 50) and 6 (created at 60) for `a@x.com`, both pending at
`now = 70`; one public organization. -/
def C3db : DB :=
  { organizations := [⟨1, "Pub", true⟩]
    members := []
    invitations := [⟨5, "a@x.com", "t5", Role.admin, some 2, some 10, 100, none, 50⟩,
                    ⟨6, "a@x.com", "t6", Role.owner, some 1, some 10, 100, none, 60⟩]
    profiles := []
    nextId := 20 }

/-- C3 (code bug): the trigger's lookup does select the newest (t2)
invitation, yet the signup consumes nothing — both invitations keep
`used_at` null — and no membership is created from the t2 invitation's
role and organization; the user instead gets the fallback `viewer`
membership in the public organization.  The row-wise
`IF invitation_record IS NOT NULL` test is false on every matched row
(`used_at` is null there by the `WHERE` clause), so the redemption arm
the claim describes is unreachable. -/
theorem C3_code_bug_eval :
    pickInvitation C3db.invitations "a@x.com" 70 =
      some ⟨6, "a@x.com", "t6", Role.owner, some 1, some 10, 100, none, 60⟩
    ∧ (handle_invitation_signup C3db ⟨30, "a@x.com", none⟩ 70).invitations = C3db.invitations
    ∧ (handle_invitation_signup C3db ⟨30, "a@x.com", none⟩ 70).members = [⟨1, 30, Role.viewer⟩]
    ∧ (handle_invitation_signup C3db ⟨30, "a@x.com", none⟩ 70).profiles =
        [newProfile ⟨30, "a@x.com", none⟩] :=
  ⟨by decide, by decide, by decide, by decide⟩

end ClaimC3

section ClaimC4

/-- C4: when no stored invitation for the signup email is pending — in
particular when every matching invitation is already consumed — the trigger
creates the profile and a `viewer` membership in the first public
organization, and touches nothing else: the invitations table (and any
consumed invitation in it) is unchanged, so no membership is minted from a
consumed invitation. -/
theorem C4_self_serve_viewer (db : DB) (ev : SignupEvent) (now : Int) (o : Organization)
    (hnone : ∀ i ∈ db.invitations, invitationMatches i ev.email now = false)
    (hpub : firstPublicOrg db = some o) :
    handle_invitation_signup db ev now =
      { db with profiles := db.profiles ++ [newProfile ev], members := db.members ++ [⟨o.id, ev.userId, Role.viewer⟩] }
    ∧ (handle_invitation_signup db ev now).invitations = db.invitations := by
  have hss := handle_signup_eq_self_serve db ev now
  constructor
  · rw [hss]
    unfold self_serve_signup
    rw [hpub]
  · rw [hss]
    unfold self_serve_signup
    rw [hpub]

/-- C4 witness: the only invitation for `c@x.com` is consumed
(`used_at = 50`); the signup of user 31 at `now = 70` gets a viewer
membership in public organization 1 and the consumed invitation is not
redeemed again. -/
theorem C4_witness :
    (∀ i ∈ C6db.invitations, invitationMatches i "c@x.com" 70 = false)
    ∧ handle_invitation_signup C6db ⟨31, "c@x.com", none⟩ 70 =
        { C6db with profiles := C6db.profiles ++ [newProfile ⟨31, "c@x.com", none⟩], members := C6db.members ++ [⟨1, 31, Role.viewer⟩] }
    ∧ (handle_invitation_signup C6db ⟨31, "c@x.com", none⟩ 70).invitations = C6db.invitations := by
  have h := C4_self_serve_viewer C6db ⟨31, "c@x.com", none⟩ 70 ⟨1, "Public Organization", true⟩
    (by decide) (by decide)
  exact ⟨by decide, h.1, h.2⟩

end ClaimC4

section ClaimC5

/-- A store with no organization at all and a pending null-org
`super_admin` invitation for `boot@x.com` — the bootstrap situation the
migration's step 10 sets up. -/
def C5db : DB :=
  { organizations := []
    members := []
    invitations := [⟨1, "boot@x.com", "bootstrap", Role.super_admin, none, none, 365, none, 0⟩]
    profiles := []
    nextId := 2 }

/-- C5 (code bug): the claimed super-admin redemption never happens.
Starting from the organization-less bootstrap store, the trigger's lookup
selects the pending null-org `super_admin` invitation, yet the signup
leaves it un-consumed, creates no organization (so no "Public
Organization" row), grants no membership, and the new user is no
super-admin.  The row-wise `IF invitation_record IS NOT NULL` test is
false on the matched row (`used_at` null), so the super-admin attachment
arm is unreachable. -/
theorem C5_code_bug_eval :
    pickInvitation C5db.invitations "boot@x.com" 10 =
      some ⟨1, "boot@x.com", "bootstrap", Role.super_admin, none, none, 365, none, 0⟩
    ∧ (handle_invitation_signup C5db ⟨7, "boot@x.com", none⟩ 10).organizations = []
    ∧ (handle_invitation_signup C5db ⟨7, "boot@x.com", none⟩ 10).members = []
    ∧ (handle_invitation_signup C5db ⟨7, "boot@x.com", none⟩ 10).invitations = C5db.invitations
    ∧ is_super_admin (handle_invitation_signup C5db ⟨7, "boot@x.com", none⟩ 10) 7 = false :=
  ⟨by decide, by decide, by decide, by decide, by decide⟩

end ClaimC5

section ClaimC9

/-- A store with a public organization, one super-admin (user 10) and one
pending null-org `admin` invitation (id 3) for `solo@x.com`. -/
def C9db : DB :=
  { organizations := [⟨1, "Pub", true⟩]
    members := [⟨1, 10, Role.super_admin⟩]
    invitations := [⟨3, "solo@x.com", "t3", Role.admin, none, some 10, 90, none, 20⟩]
    profiles := []
    nextId := 4 }

/-- C9 counterexample: the claim predicts that signing up against the
pending null-org `admin` invitation marks it consumed and creates no
membership at all; at `C9db` the code does the opposite on both counts —
the invitations table is unchanged (`used_at` stays null) and a `viewer`
membership in the public organization is inserted. -/
theorem C9_counterexample :
    pickInvitation C9db.invitations "solo@x.com" 40 =
      some ⟨3, "solo@x.com", "t3", Role.admin, none, some 10, 90, none, 20⟩
    ∧ (handle_invitation_signup C9db ⟨8, "solo@x.com", none⟩ 40).invitations = C9db.invitations
    ∧ (handle_invitation_signup C9db ⟨8, "solo@x.com", none⟩ 40).members =
        [⟨1, 10, Role.super_admin⟩, ⟨1, 8, Role.viewer⟩] :=
  ⟨by decide, by decide, by decide⟩

/-- C9 (amended): for a signup matching a pending null-org,
non-`super_admin` invitation, the row-wise `IS NOT NULL` test fails, so
the invitation is NOT consumed — the invitations table is unchanged — the
profile is created, and the user receives no membership from the
invitation: only the fallback `viewer` membership in the first public
organization when one exists, and no membership at all otherwise. -/
theorem C9_fallback_not_redeemed (db : DB) (ev : SignupEvent) (now : Int)
    (inv : Invitation)
    (hpick : pickInvitation db.invitations ev.email now = some inv)
    (horg : inv.orgId = none) (hrole : inv.role ≠ Role.super_admin) :
    (handle_invitation_signup db ev now).invitations = db.invitations
    ∧ (handle_invitation_signup db ev now).profiles = db.profiles ++ [newProfile ev]
    ∧ (∀ o, firstPublicOrg db = some o →
        (handle_invitation_signup db ev now).members = db.members ++ [⟨o.id, ev.userId, Role.viewer⟩])
    ∧ (firstPublicOrg db = none → (handle_invitation_signup db ev now).members = db.members) := by
  have hss := handle_signup_eq_self_serve db ev now
  refine ⟨?_, ?_, ?_, ?_⟩
  · rw [hss]
    unfold self_serve_signup
    cases hpub : firstPublicOrg db <;> rfl
  · rw [hss]
    unfold self_serve_signup
    cases hpub : firstPublicOrg db <;> rfl
  · intro o ho
    rw [hss]
    unfold self_serve_signup
    rw [ho]
  · intro ho
    rw [hss]
    unfold self_serve_signup
    rw [ho]

/-- C9 witness: the amended statement at the concrete store `C9db`. -/
theorem C9_fallback_witness :
    pickInvitation C9db.invitations "solo@x.com" 40 =
      some ⟨3, "solo@x.com", "t3", Role.admin, none, some 10, 90, none, 20⟩
    ∧ ((handle_invitation_signup C9db ⟨8, "solo@x.com", none⟩ 40).invitations = C9db.invitations
      ∧ (handle_invitation_signup C9db ⟨8, "solo@x.com", none⟩ 40).profiles =
          C9db.profiles ++ [newProfile ⟨8, "solo@x.com", none⟩]
      ∧ (∀ o, firstPublicOrg C9db = some o →
          (handle_invitation_signup C9db ⟨8, "solo@x.com", none⟩ 40).members =
            C9db.members ++ [⟨o.id, 8, Role.viewer⟩])
      ∧ (firstPublicOrg C9db = none →
          (handle_invitation_signup C9db ⟨8, "solo@x.com", none⟩ 40).members = C9db.members)) :=
  ⟨by decide,
    C9_fallback_not_redeemed C9db ⟨8, "solo@x.com", none⟩ 40
      ⟨3, "solo@x.com", "t3", Role.admin, none, some 10, 90, none, 20⟩
      (by decide) rfl (by decide)⟩

end ClaimC9

section ClaimC10

/-- Lowercasing a basic latin letter never yields an uppercase letter, and
leaves non-letters (which are not uppercase) unchanged. -/
theorem isUpper_toLower (c : Char) : (Char.toLower c).isUpper = false := by
  have hup : ∀ n : Nat, 65 ≤ n → n ≤ 90 → (Char.ofNat (n + 32)).isUpper = false := by
    intro n h1 h2
    interval_cases n <;> decide
  unfold Char.toLower
  by_cases h : 65 ≤ c.toNat ∧ c.toNat ≤ 90
  · rw [if_pos h]
    exact hup _ h.1 h.2
  · rw [if_neg h]
    rw [Char.isUpper]
    by_contra hc
    simp only [Bool.not_eq_false, Bool.and_eq_true, decide_eq_true_eq] at hc
    exact h ⟨hc.1, hc.2⟩

/-- No character of a `LOWER`ed string is uppercase. -/
theorem sqlLower_no_upper (s : String) : ∀ c ∈ (sqlLower s).data, c.isUpper = false := by
  intro c hc
  obtain ⟨a, _, ha⟩ := List.mem_map.mp hc
  rw [← ha]
  exact isUpper_toLower a

/-- C10: `create_user_invitation` stores `LOWER(p_email)`, while the signup
trigger matches invitations by exact equality with the raw signup email;
hence the stored invitation is matched only by the exact lowercase form of
the invited address, and a signup email containing any uppercase character
never matches it. -/
theorem C10_lowercased_email_matching (db : DB) (caller : Nat) (e : String) (r : Role)
    (oid : Option Nat) (tok : String) (now mNow : Int)
    (hsa : is_super_admin db caller = true) (hval : valid_email e = true) :
    create_user_invitation db caller e r oid tok now =
      Except.ok (db.nextId, { db with invitations := db.invitations ++ [newInvitation db caller e r oid tok now], nextId := db.nextId + 1 })
    ∧ (newInvitation db caller e r oid tok now).email = sqlLower e
    ∧ (∀ m, invitationMatches (newInvitation db caller e r oid tok now) m mNow = true → m = sqlLower e)
    ∧ ∀ m, (∃ c ∈ m.data, c.isUpper = true) →
        invitationMatches (newInvitation db caller e r oid tok now) m mNow = false := by
  refine ⟨by simp [create_user_invitation, hsa, hval], rfl, ?_, ?_⟩
  · intro m hm
    unfold invitationMatches at hm
    simp only [Bool.and_eq_true, beq_iff_eq] at hm
    exact hm.1.1.symm
  · intro m hex
    obtain ⟨c, hc, hupper⟩ := hex
    cases hmatch : invitationMatches (newInvitation db caller e r oid tok now) m mNow with
    | false => rfl
    | true =>
      exfalso
      have hm : sqlLower e = m := by
        unfold invitationMatches at hmatch
        simp only [Bool.and_eq_true, beq_iff_eq] at hmatch
        exact hmatch.1.1
      rw [← hm] at hc
      rw [sqlLower_no_upper e c hc] at hupper
      cases hupper

/-- C10 witness: the invitation for `Ada@X.com` is stored as `ada@x.com`,
and a signup email `Ada@x.com` (capital `A`) never matches it. -/
theorem C10_witness :
    is_super_admin C6db 10 = true
    ∧ valid_email "Ada@X.com" = true
    ∧ (newInvitation C6db 10 "Ada@X.com" Role.viewer none "tk" 0).email = sqlLower "Ada@X.com"
    ∧ invitationMatches (newInvitation C6db 10 "Ada@X.com" Role.viewer none "tk" 0) "Ada@x.com" 0 = false := by
  have h := C10_lowercased_email_matching C6db 10 "Ada@X.com" Role.viewer none "tk" 0 0
    (by decide) (by decide)
  exact ⟨by decide, by decide, h.2.1, h.2.2.2 "Ada@x.com" ⟨'A', by decide, by decide⟩⟩

end ClaimC10

end PromptHub
